import Mathlib

/-!
Verification development for the NoiseChip firmware (NoiseChip.ino).

The firmware contains three components with logical content:

* `Wave` — a square-wave oscillator.  Its compile-time constants are
  `period_ticks = (1000000L / frequency) / tick_period_us` and
  `half_period_ticks = period_ticks / 2`, both stored in `uint8_t`.
  Its mutable state is a `uint8_t` counter, zero-initialised, advanced by
  `tick()`:

    if (self.counter <= period_ticks) self.counter++;
    else self.counter = 0;
    if (self.counter <= half_period_ticks) pin::setHigh();
    else pin::setLow();

* `Timer` — the compare-match handler `handleCOMPA()` ticks the four
  registered waves in declaration order and then writes the `OCF0A` bit of
  `TIFR` (which on AVR clears the pending-interrupt flag).

* `LFSR` — a 16-bit linear feedback shift register with taps {0,1,3,12},
  seeded with `0xA1E`.

Machine integers are modelled as `Nat` with explicit reduction modulo `2^8`
(for `uint8_t`) and `2^16` (for `uint16_t`) at the points where the C++
types truncate.  All definitions are executable.
-/

namespace NoiseChip

namespace Wave

/-- Wave::period_ticks, a compile-time `uint8_t` constant:
`(1000000L / frequency) / tick_period_us`, two truncating integer
divisions, the result truncated to `uint8_t`. -/
def period_ticks (frequency tick_period_us : Nat) : Nat :=
  ((1000000 / frequency) / tick_period_us) % 256

/-- Wave::half_period_ticks, a compile-time `uint8_t` constant:
`period_ticks / 2` (truncating integer division). -/
def half_period_ticks (frequency tick_period_us : Nat) : Nat :=
  period_ticks frequency tick_period_us / 2

/-- First statement of Wave::tick: the counter update.  `counter` is a
`uint8_t`, so the increment wraps modulo 256.  `p` is `period_ticks`. -/
def tickCounter (p c : Nat) : Nat :=
  if c ≤ p then (c + 1) % 256 else 0

/-- Second statement of Wave::tick: the pin level driven after the counter
update (`true` = `pin::setHigh()`, `false` = `pin::setLow()`).  `h` is
`half_period_ticks`. -/
def tickOutput (h c : Nat) : Bool :=
  decide (c ≤ h)

/-- Wave::tick on a single oscillator with parameters `p = period_ticks`
and `h = half_period_ticks`: update the counter, then drive the pin from
the updated counter.  Returns the new counter and the driven level. -/
def tick (p h c : Nat) : Nat × Bool :=
  (tickCounter p c, tickOutput h (tickCounter p c))

/-- Wave::begin: after `pin::setOutput()` it performs one `tick()` from the
zero-initialised counter (`static Self s = Self()` value-initialises the
`uint8_t` counter to 0). -/
def begin (p h : Nat) : Nat × Bool :=
  tick p h 0

/-- Counter value after `n` calls of Wave::tick starting from the
zero-initialised counter. -/
def counterAfter (p : Nat) : Nat → Nat
  | 0 => 0
  | n + 1 => tickCounter p (counterAfter p n)

end Wave

namespace LFSR

/-- LFSR::next on the `uint16_t` register `reg`:

    uint8_t b = ((reg >> 0) ^ (reg >> 1) ^ (reg >> 3) ^ (reg >> 12)) & 1;
    reg = (reg >> 1) | (b << 15);
    return b;

Returns the produced bit (as 0 or 1) together with the new register value;
the assignment to the `uint16_t` field truncates modulo `2^16`. -/
def next (reg : Nat) : Nat × Nat :=
  let b := ((reg >>> 0) ^^^ (reg >>> 1) ^^^ (reg >>> 3) ^^^ (reg >>> 12)) &&& 1
  (b, ((reg >>> 1) ||| (b <<< 15)) % 65536)

/-- Register value after `n` calls of LFSR::next starting from a register
constructed with `LFSR(seed)`; the `uint16_t` constructor argument
truncates the seed modulo `2^16`. -/
def stateAfter (seed : Nat) : Nat → Nat
  | 0 => seed % 65536
  | n + 1 => (next (stateAfter seed n)).2

/-- Bit sequence and final register after `n` calls of LFSR::next starting
from a register constructed with `LFSR(seed)`. -/
def run (seed : Nat) : Nat → List Nat × Nat
  | 0 => ([], seed % 65536)
  | n + 1 =>
    let r := run seed n
    let s := next r.2
    (r.1 ++ [s.1], s.2)

end LFSR

/-- Observable scheduler events of one Timer::handleCOMPA invocation:
`tickEvent i` is the call `Handler(i+1)::tick()` and `ackEvent` is the
final write `TIFR |= _BV(OCF0A)` that clears the pending compare-match
interrupt flag. -/
inductive Event where
  | tickEvent : Nat → Event
  | ackEvent : Event
deriving DecidableEq, Repr

/-- State touched by Timer::handleCOMPA: the four wave counters, the four
wave output pins, and the pending compare-match flag (`OCF0A` in `TIFR`). -/
structure ChipState where
  c0 : Nat
  c1 : Nat
  c2 : Nat
  c3 : Nat
  o0 : Bool
  o1 : Bool
  o2 : Bool
  o3 : Bool
  pending : Bool
deriving DecidableEq, Repr

namespace Timer

/-- Timer::handleCOMPA with the four registered waves having parameters
`(p0,h0) … (p3,h3)`:

    Handler1::tick();
    Handler2::tick();
    Handler3::tick();
    Handler4::tick();
    TIFR |= _BV(OCF0A);

Each statement is modelled in source order, appending its observable event;
the final `TIFR` write clears the pending flag on AVR. -/
def handleCOMPA (p0 h0 p1 h1 p2 h2 p3 h3 : Nat) (st : ChipState) :
    ChipState × List Event :=
  let r0 := Wave.tick p0 h0 st.c0
  let st1 := { st with c0 := r0.1, o0 := r0.2 }
  let tr1 := [Event.tickEvent 0]
  let r1 := Wave.tick p1 h1 st1.c1
  let st2 := { st1 with c1 := r1.1, o1 := r1.2 }
  let tr2 := tr1 ++ [Event.tickEvent 1]
  let r2 := Wave.tick p2 h2 st2.c2
  let st3 := { st2 with c2 := r2.1, o2 := r2.2 }
  let tr3 := tr2 ++ [Event.tickEvent 2]
  let r3 := Wave.tick p3 h3 st3.c3
  let st4 := { st3 with c3 := r3.1, o3 := r3.2 }
  let tr4 := tr3 ++ [Event.tickEvent 3]
  let st5 := { st4 with pending := false }
  let tr5 := tr4 ++ [Event.ackEvent]
  (st5, tr5)

/-- How often the timer ticks, microseconds (`timer_period_us = 25`). -/
def timer_period_us : Nat := 25

end Timer

namespace Wave

/-- Observation of one wave channel while the timer runs: the current
counter, the level currently driven on the pin, and the number of
HIGH-to-LOW and LOW-to-HIGH transitions of that level seen so far. -/
structure SimState where
  counter : Nat
  level : Bool
  hlCount : Nat
  lhCount : Nat
deriving DecidableEq, Repr

/-- One Wave::tick of a channel, recording output toggles. -/
def simStep (p h : Nat) (s : SimState) : SimState :=
  let r := tick p h s.counter
  { counter := r.1
    level := r.2
    hlCount := s.hlCount + (if s.level && !r.2 then 1 else 0)
    lhCount := s.lhCount + (if !s.level && r.2 then 1 else 0) }

/-- Initial observation: counter 0 (value-initialised) and the level a tick
drives for counter 0, which is the HIGH level Wave::begin establishes
before the timer starts firing. -/
def simInit (h : Nat) : SimState :=
  { counter := 0, level := tickOutput h 0, hlCount := 0, lhCount := 0 }

/-- Iterate `simStep` a given number of ticks. -/
def simIter (p h : Nat) : Nat → SimState → SimState
  | 0, s => s
  | n + 1, s => simStep p h (simIter p h n s)

/-- Observation of one wave channel after `n` timer ticks from startup. -/
def simWave (p h n : Nat) : SimState :=
  simIter p h n (simInit h)

/-- Wave::begin of the wave instantiated with template arguments
`frequency` and `tick_period_us`, using the derived compile-time
constants.  The code contains no validity check on these constants. -/
def beginCfg (frequency tick_period_us : Nat) : Nat × Bool :=
  begin (period_ticks frequency tick_period_us)
    (half_period_ticks frequency tick_period_us)

/-- Number of ticks, among the first `p + 2` ticks from startup, on which
the wave drives its pin HIGH (tick number `k + 1` drives the level
determined by the counter after `k + 1` tick calls). -/
def highTicksInFirstCycle (p h : Nat) : Nat :=
  List.countP (fun k => tickOutput h (counterAfter p (k + 1))) (List.range (p + 2))

/-- Modelled from the spec: the two-step tick algorithm exactly as §4.1
words it — 1. if `counter <= periodTicks` increment `counter` (a `uint8_t`
increment, so modulo 256) else reset it to 0; 2. if the updated
`counter <= halfPeriodTicks` drive HIGH else drive LOW.  Used only to be
compared against `Wave.tick`, which is transcribed from the code. -/
def tickSpec (p h c : Nat) : Nat × Bool :=
  let c' := if c ≤ p then (c + 1) % 256 else 0
  (c', decide (c' ≤ h))

/-- Modelled from the spec: `periodTicks = round(1 / (frequency ·
tickPeriod))` with `tickPeriod = tick_period_us · 10⁻⁶ s`, i.e. the integer
nearest to `10⁶ / (frequency · tick_period_us)` (half rounds up).  Used
only to be compared against `Wave.period_ticks`. -/
def period_ticks_spec (frequency tick_period_us : Nat) : Nat :=
  (2 * 1000000 + frequency * tick_period_us) / (2 * (frequency * tick_period_us))

end Wave

namespace LFSR

/-- Modelled from the spec: `next()` as §4.2 words it — feedback bit
`b = state[0] xor state[1] xor state[3] xor state[12]` (bit positions from
the least-significant bit), then shift the state right one position and
insert `b` into the vacated most-significant bit (bit 15).  Used only to
be compared against `LFSR.next`, which is transcribed from the code. -/
def nextSpec (s : Nat) : Nat × Nat :=
  let b := if (s.testBit 0).xor ((s.testBit 1).xor ((s.testBit 3).xor (s.testBit 12)))
    then 1 else 0
  (b, (s >>> 1) ||| (b <<< 15))

end LFSR

/-! Helper lemmas shared by the claim theorems. -/

/-- Closed form of the wave counter: as long as `period_ticks + 1` fits a
`uint8_t` (true of every instantiated wave), the counter after `n` ticks is
`n` modulo `period_ticks + 2`. -/
theorem Wave.counterAfter_mod (p : Nat) (hp : p ≤ 254) :
    ∀ n, Wave.counterAfter p n = n % (p + 2)
  | 0 => by simp [Wave.counterAfter]
  | n + 1 => by
    have ih := Wave.counterAfter_mod p hp n
    have hm : 0 < p + 2 := by omega
    have hr : n % (p + 2) < p + 2 := Nat.mod_lt _ hm
    have hstep : (n + 1) % (p + 2) = (n % (p + 2) + 1) % (p + 2) := by
      conv_lhs => rw [Nat.add_mod]
      have h1 : 1 % (p + 2) = 1 := Nat.mod_eq_of_lt (by omega)
      rw [h1]
    rw [Wave.counterAfter, ih, hstep, Wave.tickCounter]
    by_cases hc : n % (p + 2) ≤ p
    · rw [if_pos hc]
      have h256 : (n % (p + 2) + 1) % 256 = n % (p + 2) + 1 :=
        Nat.mod_eq_of_lt (by omega)
      have hlt : (n % (p + 2) + 1) % (p + 2) = n % (p + 2) + 1 :=
        Nat.mod_eq_of_lt (by omega)
      rw [h256, hlt]
    · rw [if_neg hc]
      have : n % (p + 2) = p + 1 := by omega
      rw [this, Nat.mod_self]

/-- Counting the elements of `List.range N` below a bound. -/
theorem countP_range_lt (h : Nat) :
    ∀ N, List.countP (fun k => decide (k < h)) (List.range N) = min h N
  | 0 => by simp
  | N + 1 => by
    rw [List.range_succ, List.countP_append, countP_range_lt h N]
    by_cases hN : N < h <;> simp [List.countP_cons, hN] <;> omega

/-- Splitting an iterated simulation. -/
theorem Wave.simIter_add (p h b : Nat) (s : Wave.SimState) :
    ∀ a, Wave.simIter p h (b + a) s = Wave.simIter p h a (Wave.simIter p h b s)
  | 0 => rfl
  | a + 1 => congrArg (Wave.simStep p h) (Wave.simIter_add p h b s a)

/-- State of one wave channel throughout a single counter cycle started at
a cycle boundary (counter 0, level HIGH): after `t ≤ p + 2` further ticks
the counter is `t % (p + 2)`, the level is HIGH exactly while the counter
is `≤ h`, the HIGH-to-LOW toggle count rises by one exactly when the
counter passes `h`, and the LOW-to-HIGH toggle count rises by one exactly
at the end of the cycle. -/
theorem Wave.simIter_cycle_state (p h a b : Nat) (hp : p ≤ 254) (hhp : h ≤ p) :
    ∀ t, t ≤ p + 2 →
      Wave.simIter p h t ⟨0, true, a, b⟩ =
        ⟨t % (p + 2), decide (t % (p + 2) ≤ h),
          a + (if h + 1 ≤ t then 1 else 0),
          b + (if p + 2 ≤ t then 1 else 0)⟩ := by
  intro t
  induction t with
  | zero =>
    intro _
    simp [Wave.simIter]
  | succ t ih =>
    intro ht
    have ihh := ih (by omega)
    have hstep : Wave.simIter p h (t + 1) ⟨0, true, a, b⟩ =
        Wave.simStep p h (Wave.simIter p h t ⟨0, true, a, b⟩) := rfl
    rw [hstep, ihh]
    have htm : t % (p + 2) = t := Nat.mod_eq_of_lt (by omega)
    rw [Wave.simStep, Wave.tick, htm]
    rcases Nat.lt_or_ge t (p + 1) with hcase | hcase
    · have hc : t ≤ p := by omega
      have hc' : Wave.tickCounter p t = t + 1 := by
        rw [Wave.tickCounter, if_pos hc]
        exact Nat.mod_eq_of_lt (by omega)
      have hm1 : (t + 1) % (p + 2) = t + 1 := Nat.mod_eq_of_lt (by omega)
      simp only [hc', hm1, Wave.tickOutput, Wave.SimState.mk.injEq, true_and]
      and_intros <;>
        first
          | rfl
          | (by_cases h1 : t ≤ h <;> by_cases h2 : t + 1 ≤ h <;>
              simp [h1, h2] <;> split_ifs <;> omega)
    · have hc : t = p + 1 := by omega
      subst hc
      have hc' : Wave.tickCounter p (p + 1) = 0 := by
        rw [Wave.tickCounter, if_neg (by omega)]
      have hm1 : (p + 1 + 1) % (p + 2) = 0 := by
        have : p + 1 + 1 = p + 2 := rfl
        rw [this, Nat.mod_self]
      have h1 : ¬ p + 1 ≤ h := by omega
      simp only [hc', hm1, Wave.tickOutput, Wave.SimState.mk.injEq, true_and,
        decide_eq_true_eq]
      and_intros <;>
        first
          | rfl
          | (split_ifs <;> omega)
          | (simp [h1] <;> split_ifs <;> omega)

/-- One full counter cycle, started at a cycle boundary, returns the
channel to the boundary and adds exactly one HIGH-to-LOW and exactly one
LOW-to-HIGH toggle. -/
theorem Wave.simIter_cycle (p h a b : Nat) (hp : p ≤ 254) (hhp : h ≤ p) :
    Wave.simIter p h (p + 2) ⟨0, true, a, b⟩ = ⟨0, true, a + 1, b + 1⟩ := by
  rw [Wave.simIter_cycle_state p h a b hp hhp (p + 2) le_rfl, Nat.mod_self,
    if_pos (by omega : h + 1 ≤ p + 2), if_pos (le_refl (p + 2))]
  simp

/-- After `k` whole counter cycles from startup the channel is back at the
cycle boundary with exactly `k` toggles in each direction. -/
theorem Wave.simWave_cycles (p h : Nat) (hp : p ≤ 254) (hhp : h ≤ p) :
    ∀ k, Wave.simWave p h (k * (p + 2)) = ⟨0, true, k, k⟩
  | 0 => by
    simp [Wave.simWave, Wave.simIter, Wave.simInit, Wave.tickOutput]
  | k + 1 => by
    have ih := Wave.simWave_cycles p h hp hhp k
    have hmul : (k + 1) * (p + 2) = k * (p + 2) + (p + 2) := by ring
    rw [Wave.simWave, hmul, Wave.simIter_add, ← Wave.simWave, ih,
      Wave.simIter_cycle p h k k hp hhp]

/-- Channel 0 (1049 Hz, `p = 38`, `h = 19`) after 10000 ticks:
10000 = 250 · 40 whole cycles. -/
theorem simWave_ch0 : Wave.simWave 38 19 10000 = ⟨0, true, 250, 250⟩ := by
  have h1 := Wave.simWave_cycles 38 19 (by omega) (by omega) 250
  norm_num at h1
  exact h1

set_option maxRecDepth 8000 in
/-- Channel 1 (717 Hz, `p = 55`, `h = 27`) after 10000 ticks:
10000 = 175 · 57 + 25. -/
theorem simWave_ch1 : Wave.simWave 55 27 10000 = ⟨25, true, 175, 175⟩ := by
  have h1 := Wave.simWave_cycles 55 27 (by omega) (by omega) 175
  norm_num at h1
  have h2 : Wave.simWave 55 27 (9975 + 25) =
      Wave.simIter 55 27 25 (Wave.simWave 55 27 9975) := by
    rw [Wave.simWave, Wave.simIter_add, ← Wave.simWave]
  rw [show (10000 : Nat) = 9975 + 25 from rfl, h2, h1]
  decide

set_option maxRecDepth 8000 in
/-- Channel 2 (261 Hz, `p = 153`, `h = 76`) after 10000 ticks:
10000 = 64 · 155 + 80. -/
theorem simWave_ch2 : Wave.simWave 153 76 10000 = ⟨80, false, 65, 64⟩ := by
  have h1 := Wave.simWave_cycles 153 76 (by omega) (by omega) 64
  norm_num at h1
  have h2 : Wave.simWave 153 76 (9920 + 80) =
      Wave.simIter 153 76 80 (Wave.simWave 153 76 9920) := by
    rw [Wave.simWave, Wave.simIter_add, ← Wave.simWave]
  rw [show (10000 : Nat) = 9920 + 80 from rfl, h2, h1]
  decide

set_option maxRecDepth 8000 in
/-- Channel 3 (392 Hz, `p = 102`, `h = 51`) after 10000 ticks:
10000 = 96 · 104 + 16. -/
theorem simWave_ch3 : Wave.simWave 102 51 10000 = ⟨16, true, 96, 96⟩ := by
  have h1 := Wave.simWave_cycles 102 51 (by omega) (by omega) 96
  norm_num at h1
  have h2 : Wave.simWave 102 51 (9984 + 16) =
      Wave.simIter 102 51 16 (Wave.simWave 102 51 9984) := by
    rw [Wave.simWave, Wave.simIter_add, ← Wave.simWave]
  rw [show (10000 : Nat) = 9984 + 16 from rfl, h2, h1]
  decide

/-! Claim C2. -/

/-- Claim C2, counterexample: a full output wave cycle takes
`period_ticks + 2` ticks, not `period_ticks`.  For the first configured
channel (1049 Hz, `period_ticks = 38`, `half_period_ticks = 19`) the
HIGH-to-LOW toggle count over 10000 ticks is 250 (one per 40 ticks), while
the claim predicts `10000 / 38 = 263` within ±1. -/
theorem wave_toggle_count_mismatch :
    Wave.period_ticks 1049 25 = 38 ∧ Wave.half_period_ticks 1049 25 = 19 ∧
    (Wave.simWave 38 19 10000).hlCount = 250 ∧ 10000 / 38 = 263 ∧
    ¬ (263 - 1 ≤ (Wave.simWave 38 19 10000).hlCount ∧
       (Wave.simWave 38 19 10000).hlCount ≤ 263 + 1) := by
  rw [simWave_ch0]
  exact ⟨by decide, by decide, by decide, by decide, by decide⟩

/-- Claim C2, amended: over each counter cycle — which lasts
`period_ticks + 2` ticks, not `period_ticks` — the output toggles from
HIGH to LOW exactly once and from LOW to HIGH exactly once (first
conjunct, for every wave with `half_period_ticks ≤ period_ticks ≤ 254`
starting a cycle); consequently over 10000 ticks the four configured
channels toggle HIGH to LOW {250, 175, 65, 96} times and LOW to HIGH
{250, 175, 64, 96} times, each within ±1 of
`10000 / (period_ticks + 2)` = {250, 175, 64, 96}. -/
theorem wave_toggles_once_per_extended_period (p h a b : Nat)
    (hp : p ≤ 254) (hhp : h ≤ p) :
    Wave.simIter p h (p + 2) ⟨0, true, a, b⟩ = ⟨0, true, a + 1, b + 1⟩ ∧
    (Wave.simWave 38 19 10000).hlCount = 250 ∧
    (Wave.simWave 38 19 10000).lhCount = 250 ∧
    (Wave.simWave 55 27 10000).hlCount = 175 ∧
    (Wave.simWave 55 27 10000).lhCount = 175 ∧
    (Wave.simWave 153 76 10000).hlCount = 65 ∧
    (Wave.simWave 153 76 10000).lhCount = 64 ∧
    (Wave.simWave 102 51 10000).hlCount = 96 ∧
    (Wave.simWave 102 51 10000).lhCount = 96 ∧
    Nat.dist ((Wave.simWave 38 19 10000).hlCount) (10000 / (38 + 2)) ≤ 1 ∧
    Nat.dist ((Wave.simWave 38 19 10000).lhCount) (10000 / (38 + 2)) ≤ 1 ∧
    Nat.dist ((Wave.simWave 55 27 10000).hlCount) (10000 / (55 + 2)) ≤ 1 ∧
    Nat.dist ((Wave.simWave 55 27 10000).lhCount) (10000 / (55 + 2)) ≤ 1 ∧
    Nat.dist ((Wave.simWave 153 76 10000).hlCount) (10000 / (153 + 2)) ≤ 1 ∧
    Nat.dist ((Wave.simWave 153 76 10000).lhCount) (10000 / (153 + 2)) ≤ 1 ∧
    Nat.dist ((Wave.simWave 102 51 10000).hlCount) (10000 / (102 + 2)) ≤ 1 ∧
    Nat.dist ((Wave.simWave 102 51 10000).lhCount) (10000 / (102 + 2)) ≤ 1 := by
  constructor
  · exact Wave.simIter_cycle p h a b hp hhp
  · rw [simWave_ch0, simWave_ch1, simWave_ch2, simWave_ch3]
    decide

/-- Claim C2, witness: the per-cycle toggle property of the amended
theorem at the first configured channel starting from startup. -/
theorem wave_toggles_once_per_extended_period_witness :
    Wave.simIter 38 19 (38 + 2) ⟨0, true, 0, 0⟩ = ⟨0, true, 0 + 1, 0 + 1⟩ :=
  (wave_toggles_once_per_extended_period 38 19 0 0 (by decide) (by decide)).1

/-! Claim C10. -/

/-- Claim C10, confirmed: from the initial counter 0 the counter sequence
is `n % (period_ticks + 2)` — it runs 1, 2, …, `period_ticks + 1`, 0 and
is periodic with period exactly `period_ticks + 2` (shift by the period is
the identity and no positive shift below it fixes the start) — and of the
`period_ticks + 2` ticks of one full cycle exactly
`half_period_ticks + 1` drive the output HIGH. -/
theorem wave_counter_cycle_structure (p h n d : Nat) (hp : p ≤ 254)
    (hh : h = p / 2) (hd0 : 0 < d) (hd : d < p + 2) :
    Wave.counterAfter p n = n % (p + 2) ∧
    Wave.counterAfter p (n + (p + 2)) = Wave.counterAfter p n ∧
    Wave.counterAfter p d ≠ Wave.counterAfter p 0 ∧
    Wave.highTicksInFirstCycle p h = h + 1 := by
  have hcf := Wave.counterAfter_mod p hp
  refine ⟨hcf n, ?_, ?_, ?_⟩
  · rw [hcf, hcf, Nat.add_mod_right]
  · rw [hcf, hcf, Nat.mod_eq_of_lt hd]
    simp
    omega
  · rw [Wave.highTicksInFirstCycle]
    have hcong1 : ∀ k ∈ List.range (p + 2),
        (Wave.tickOutput h (Wave.counterAfter p (k + 1)) = true) ↔
          (decide ((k + 1) % (p + 2) ≤ h) = true) := by
      intro k _
      rw [Wave.tickOutput, hcf]
    rw [List.countP_congr hcong1,
      show p + 2 = (p + 1) + 1 from rfl, List.range_succ, List.countP_append]
    have hlast : List.countP (fun k => decide ((k + 1) % (p + 2) ≤ h)) [p + 1] = 1 := by
      have h0 : (p + 1 + 1) % (p + 2) = 0 := by
        rw [show p + 1 + 1 = p + 2 from rfl, Nat.mod_self]
      simp [List.countP_cons, h0]
    rw [hlast]
    have hcong2 : ∀ k ∈ List.range (p + 1),
        (decide ((k + 1) % (p + 2) ≤ h) = true) ↔ (decide (k < h) = true) := by
      intro k hk
      rw [List.mem_range] at hk
      rw [Nat.mod_eq_of_lt (by omega)]
      simp only [decide_eq_true_eq]
      omega
    rw [List.countP_congr hcong2, countP_range_lt]
    have hmin : min h (p + 1) = h := by omega
    rw [hmin]

/-- Claim C10, witness: the cycle-structure theorem at the first
configured channel, 100 ticks in, with shift 7. -/
theorem wave_counter_cycle_structure_witness :
    Wave.counterAfter 38 100 = 100 % (38 + 2) ∧
    Wave.counterAfter 38 (100 + (38 + 2)) = Wave.counterAfter 38 100 ∧
    Wave.counterAfter 38 7 ≠ Wave.counterAfter 38 0 ∧
    Wave.highTicksInFirstCycle 38 19 = 19 + 1 :=
  wave_counter_cycle_structure 38 19 100 7 (by decide) (by decide)
    (by decide) (by decide)

/-! Claim C1. -/

/-- Claim C1, counterexample: the claimed invariant `counter ≤ periodTicks`
fails on the code.  For the first configured wave (`period_ticks = 38`) the
counter after 39 ticks from the initial state is 39, which exceeds 38. -/
theorem wave_counter_exceeds_period_ticks :
    Wave.period_ticks 1049 25 = 38 ∧
    Wave.counterAfter 38 39 = 39 ∧ ¬ Wave.counterAfter 38 39 ≤ 38 := by
  decide

/-- Claim C1, amended: for every wave whose `period_ticks + 1` fits the
`uint8_t` counter (true of all four configured waves) and every number of
ticks from the initial state, the counter stays between 0 and
`period_ticks + 1`; it reaches `period_ticks + 1` at the top of each cycle
and never goes above that (it can never go negative, being a `Nat`). -/
theorem wave_counter_le_period_ticks_succ (p n : Nat) (hp : p ≤ 254) :
    Wave.counterAfter p n ≤ p + 1 := by
  rw [Wave.counterAfter_mod p hp n]
  have := Nat.mod_lt n (y := p + 2) (by omega)
  omega

/-- Claim C1, witness for the amended theorem at the first configured wave
after 39 ticks. -/
theorem wave_counter_le_period_ticks_succ_witness :
    Wave.counterAfter 38 39 ≤ 38 + 1 :=
  wave_counter_le_period_ticks_succ 38 39 (by decide)

/-! Claim C3. -/

/-- Claim C3, counterexample: `period_ticks` is not
`round(1 / (frequency · tickPeriod))`.  The code computes it by two
truncating integer divisions, and at 717 Hz with a 25 µs tick the code
yields 55 while the rounded value is 56. -/
theorem period_ticks_is_not_round :
    Wave.period_ticks 717 25 = 55 ∧ Wave.period_ticks_spec 717 25 = 56 ∧
      Wave.period_ticks 717 25 ≠ Wave.period_ticks_spec 717 25 := by
  decide

/-- Claim C3, amended: `period_ticks` is `(10⁶ / frequency) /
tick_period_us` with truncating integer division applied twice, and
`half_period_ticks = period_ticks / 2`.  For the 25 µs tick and the four
configured frequencies {1049, 717, 261, 392} Hz, `period_ticks` is
{38, 55, 153, 102} — each within ±1 of the claimed {38, 56, 153, 102} —
and `half_period_ticks` is {19, 27, 76, 51}. -/
theorem period_ticks_values :
    Wave.period_ticks 1049 25 = 38 ∧ Wave.period_ticks 717 25 = 55 ∧
    Wave.period_ticks 261 25 = 153 ∧ Wave.period_ticks 392 25 = 102 ∧
    Wave.half_period_ticks 1049 25 = 19 ∧ Wave.half_period_ticks 717 25 = 27 ∧
    Wave.half_period_ticks 261 25 = 76 ∧ Wave.half_period_ticks 392 25 = 51 ∧
    38 - Wave.period_ticks 1049 25 ≤ 1 ∧ Wave.period_ticks 1049 25 - 38 ≤ 1 ∧
    56 - Wave.period_ticks 717 25 ≤ 1 ∧ Wave.period_ticks 717 25 - 56 ≤ 1 ∧
    153 - Wave.period_ticks 261 25 ≤ 1 ∧ Wave.period_ticks 261 25 - 153 ≤ 1 ∧
    102 - Wave.period_ticks 392 25 ≤ 1 ∧ Wave.period_ticks 392 25 - 102 ≤ 1 := by
  decide

/-! Claim C4. -/

/-- Claim C4, counterexample: no configuration is ever rejected.  A wave
configured at 50000 Hz with the 25 µs tick has `period_ticks = 0 < 2`, yet
its `begin()` completes normally (one tick from counter 0, driving LOW)
and subsequent ticks keep running: the degenerate wave simply alternates. -/
theorem degenerate_config_still_runs :
    Wave.period_ticks 50000 25 = 0 ∧ ¬ 2 ≤ Wave.period_ticks 50000 25 ∧
    Wave.beginCfg 50000 25 = (1, false) ∧
    Wave.counterAfter (Wave.period_ticks 50000 25) 4 = 0 ∧
    Wave.counterAfter (Wave.period_ticks 50000 25) 5 = 1 := by
  decide

/-- Claim C4, amended: the code contains no initialization validation at
all.  The four shipped frequencies all yield `period_ticks ≥ 2`, but a
configuration yielding `period_ticks < 2` (for example 50000 Hz at 25 µs,
which gives 0) still starts and runs forever with the degenerate period:
its counter alternates 0, 1, 0, 1, … under repeated ticks. -/
theorem no_config_validation (n : Nat) :
    2 ≤ Wave.period_ticks 1049 25 ∧ 2 ≤ Wave.period_ticks 717 25 ∧
    2 ≤ Wave.period_ticks 261 25 ∧ 2 ≤ Wave.period_ticks 392 25 ∧
    Wave.period_ticks 50000 25 = 0 ∧
    Wave.counterAfter (Wave.period_ticks 50000 25) n = n % 2 := by
  refine ⟨by decide, by decide, by decide, by decide, by decide, ?_⟩
  have h0 : Wave.period_ticks 50000 25 = 0 := by decide
  rw [h0, Wave.counterAfter_mod 0 (by omega) n]

/-- Claim C4, witness: the amended theorem six ticks in. -/
theorem no_config_validation_witness :
    2 ≤ Wave.period_ticks 1049 25 ∧ 2 ≤ Wave.period_ticks 717 25 ∧
    2 ≤ Wave.period_ticks 261 25 ∧ 2 ≤ Wave.period_ticks 392 25 ∧
    Wave.period_ticks 50000 25 = 0 ∧
    Wave.counterAfter (Wave.period_ticks 50000 25) 6 = 6 % 2 :=
  no_config_validation 6

/-! Claim C5. -/

/-- Claim C5, confirmed: every Wave::tick call performs exactly the two
steps in the claimed order — first the counter update (increment while
`counter ≤ period_ticks`, else reset to 0), then the output decision from
the updated counter (`HIGH` iff the updated counter is `≤
half_period_ticks`) — and returns nothing else: the tick result is exactly
the updated counter together with the driven level, agreeing with the
spec-worded two-step algorithm `tickSpec`. -/
theorem wave_tick_two_steps (p h c : Nat) :
    Wave.tick p h c = Wave.tickSpec p h c ∧
    (Wave.tick p h c).1 = Wave.tickCounter p c ∧
    (Wave.tick p h c).2 = Wave.tickOutput h (Wave.tickCounter p c) :=
  ⟨rfl, rfl, rfl⟩

/-- Claim C5, witness: the two-step theorem at the first configured wave
with counter 10. -/
theorem wave_tick_two_steps_witness :
    Wave.tick 38 19 10 = Wave.tickSpec 38 19 10 ∧
    (Wave.tick 38 19 10).1 = Wave.tickCounter 38 10 ∧
    (Wave.tick 38 19 10).2 = Wave.tickOutput 19 (Wave.tickCounter 38 10) :=
  wave_tick_two_steps 38 19 10

/-! Claims C6 and C7. -/

/-- Masking with 1 extracts bit 0. -/
theorem and_one_eq_ite_testBit (x : Nat) :
    x &&& 1 = if x.testBit 0 then 1 else 0 := by
  rw [Nat.and_one_is_mod, Nat.testBit_zero]
  rcases Nat.mod_two_eq_zero_or_one x with h | h <;> simp [h]

/-- The feedback expression of LFSR::next computes the xor of bits
0, 1, 3 and 12 of the register. -/
theorem lfsr_feedback_bit (s : Nat) :
    ((s >>> 0) ^^^ (s >>> 1) ^^^ (s >>> 3) ^^^ (s >>> 12)) &&& 1 =
      if (s.testBit 0).xor ((s.testBit 1).xor ((s.testBit 3).xor (s.testBit 12)))
        then 1 else 0 := by
  rw [and_one_eq_ite_testBit]
  have hbit :
      (((s >>> 0) ^^^ (s >>> 1) ^^^ (s >>> 3) ^^^ (s >>> 12))).testBit 0 =
        (s.testBit 0).xor ((s.testBit 1).xor ((s.testBit 3).xor (s.testBit 12))) := by
    rw [Nat.testBit_xor, Nat.testBit_xor, Nat.testBit_xor, Nat.shiftRight_zero,
      Nat.testBit_shiftRight, Nat.testBit_shiftRight, Nat.testBit_shiftRight]
    norm_num [Bool.xor_assoc]
  rw [hbit]

/-- The feedback bit is 0 or 1. -/
theorem lfsr_feedback_bit_le_one (s : Nat) :
    ((s >>> 0) ^^^ (s >>> 1) ^^^ (s >>> 3) ^^^ (s >>> 12)) &&& 1 ≤ 1 := by
  rw [Nat.and_one_is_mod]
  omega

/-- The register value written by LFSR::next already fits 16 bits, so the
`uint16_t` truncation is the identity on it. -/
theorem lfsr_shift_lt (s b : Nat) (hs : s < 65536) (hb : b ≤ 1) :
    (s >>> 1) ||| (b <<< 15) < 65536 := by
  have h1 : s >>> 1 < 2 ^ 16 := by
    rw [Nat.shiftRight_one]
    omega
  have h2 : b <<< 15 < 2 ^ 16 := by
    rw [Nat.shiftLeft_eq]
    have : b * 2 ^ 15 ≤ 1 * 2 ^ 15 := Nat.mul_le_mul_right _ hb
    omega
  have := Nat.or_lt_two_pow h1 h2
  omega

/-- A bitwise or is positive when its left operand is. -/
theorem lor_pos_left (x y : Nat) (hx : 0 < x) : 0 < x ||| y := by
  rcases Nat.eq_zero_or_pos (x ||| y) with h | h
  · exfalso
    have hx0 : x = 0 := by
      apply Nat.eq_of_testBit_eq
      intro i
      have hb := congrArg (fun n => n.testBit i) h
      simp only [Nat.testBit_or, Nat.zero_testBit, Bool.or_eq_false_iff] at hb
      simp [hb.1]
    omega
  · exact h

/-- Claim C6, confirmed: for every 16-bit register value, LFSR::next
returns the bit `b = s[0] xor s[1] xor s[3] xor s[12]` (bit positions from
the least-significant bit) and the new register `(s >> 1)` with `b`
inserted at bit 15, exactly as the spec-worded `nextSpec` describes; and
on the seed 0xA1E the first produced bit is the claimed literal
expression. -/
theorem lfsr_next_matches_spec :
    (∀ s, s < 65536 → LFSR.next s = LFSR.nextSpec s) ∧
    (LFSR.next 0xA1E).1 =
      ((0xA1E ^^^ (0xA1E >>> 1) ^^^ (0xA1E >>> 3) ^^^ (0xA1E >>> 12)) &&& 1) := by
  constructor
  · intro s hs
    have hb := lfsr_feedback_bit s
    have hb1 := lfsr_feedback_bit_le_one s
    have hlt := lfsr_shift_lt (s := s)
      (b := ((s >>> 0) ^^^ (s >>> 1) ^^^ (s >>> 3) ^^^ (s >>> 12)) &&& 1) hs hb1
    unfold LFSR.next LFSR.nextSpec
    refine Prod.ext ?_ ?_
    · exact hb
    · show (((s >>> 1) |||
        ((((s >>> 0) ^^^ (s >>> 1) ^^^ (s >>> 3) ^^^ (s >>> 12)) &&& 1) <<< 15)) % 65536) = _
      rw [Nat.mod_eq_of_lt hlt, hb]
  · decide

/-- Claim C6, witness: the refinement applied at the seed 0xA1E. -/
theorem lfsr_next_matches_spec_witness :
    LFSR.next 0xA1E = LFSR.nextSpec 0xA1E :=
  lfsr_next_matches_spec.1 0xA1E (by decide)

/-- One LFSR::next call keeps a non-zero 16-bit register non-zero and
16-bit. -/
theorem lfsr_next_pos (s : Nat) (h0 : 0 < s) (h16 : s < 65536) :
    0 < (LFSR.next s).2 ∧ (LFSR.next s).2 < 65536 := by
  have hb1 := lfsr_feedback_bit_le_one s
  have hlt := lfsr_shift_lt (s := s)
    (b := ((s >>> 0) ^^^ (s >>> 1) ^^^ (s >>> 3) ^^^ (s >>> 12)) &&& 1) h16 hb1
  unfold LFSR.next
  simp only
  rw [Nat.mod_eq_of_lt hlt]
  refine ⟨?_, hlt⟩
  rcases Nat.lt_or_ge s 2 with hs2 | hs2
  · have hs1 : s = 1 := by omega
    subst hs1
    decide
  · apply lor_pos_left
    rw [Nat.shiftRight_one]
    omega

/-- Claim C7, confirmed: for every non-zero 16-bit state, the state after
one next() call is again non-zero (and 16-bit); hence from any non-zero
16-bit seed the register never becomes 0 across any number of next()
calls. -/
theorem lfsr_state_never_zero (s seed n : Nat) (hs0 : 0 < s) (hs16 : s < 65536)
    (hseed0 : 0 < seed) (hseed16 : seed < 65536) :
    0 < (LFSR.next s).2 ∧ 0 < LFSR.stateAfter seed n := by
  refine ⟨(lfsr_next_pos s hs0 hs16).1, ?_⟩
  have key : ∀ m, 0 < LFSR.stateAfter seed m ∧ LFSR.stateAfter seed m < 65536 := by
    intro m
    induction m with
    | zero =>
      show 0 < seed % 65536 ∧ seed % 65536 < 65536
      rw [Nat.mod_eq_of_lt hseed16]
      exact ⟨hseed0, hseed16⟩
    | succ k ih =>
      exact lfsr_next_pos _ ih.1 ih.2
  exact (key n).1

/-- Claim C7, witness: one step and five steps from the seed 0xA1E. -/
theorem lfsr_state_never_zero_witness :
    0 < (LFSR.next 0xA1E).2 ∧ 0 < LFSR.stateAfter 0xA1E 5 :=
  lfsr_state_never_zero 0xA1E 0xA1E 5 (by decide) (by decide) (by decide) (by decide)

/-! Claim C8. -/

/-- Claim C8, confirmed: every Timer::handleCOMPA invocation ticks each of
the four registered waves exactly once, in the fixed declaration order
`Handler1, Handler2, Handler3, Handler4`, on every fire (the emitted event
trace is the same fixed list, independent of the machine state), and the
pending-fire flag is cleared by the final `TIFR` write, which comes after
all four ticks (the acknowledge event is the last event of the trace).
The resulting state is each wave advanced by exactly one tick and the
pending flag false, with nothing else changed. -/
theorem handleCOMPA_ticks_all_once (p0 h0 p1 h1 p2 h2 p3 h3 : Nat)
    (st : ChipState) :
    (Timer.handleCOMPA p0 h0 p1 h1 p2 h2 p3 h3 st).2 =
      [Event.tickEvent 0, Event.tickEvent 1, Event.tickEvent 2,
        Event.tickEvent 3] ++ [Event.ackEvent] ∧
    (∀ i, i < 4 →
      (Timer.handleCOMPA p0 h0 p1 h1 p2 h2 p3 h3 st).2.count (Event.tickEvent i) = 1) ∧
    (Timer.handleCOMPA p0 h0 p1 h1 p2 h2 p3 h3 st).2.getLast? = some Event.ackEvent ∧
    (Timer.handleCOMPA p0 h0 p1 h1 p2 h2 p3 h3 st).1 =
      { c0 := (Wave.tick p0 h0 st.c0).1, c1 := (Wave.tick p1 h1 st.c1).1
        c2 := (Wave.tick p2 h2 st.c2).1, c3 := (Wave.tick p3 h3 st.c3).1
        o0 := (Wave.tick p0 h0 st.c0).2, o1 := (Wave.tick p1 h1 st.c1).2
        o2 := (Wave.tick p2 h2 st.c2).2, o3 := (Wave.tick p3 h3 st.c3).2
        pending := false } := by
  refine ⟨rfl, ?_, rfl, rfl⟩
  intro i hi
  interval_cases i <;> rfl

/-- Claim C8, witness: the handler theorem at the four configured wave
parameters and a concrete machine state with the pending flag set. -/
theorem handleCOMPA_ticks_all_once_witness :
    (Timer.handleCOMPA 38 19 55 27 153 76 102 51
        ⟨5, 6, 7, 8, true, false, true, false, true⟩).2 =
      [Event.tickEvent 0, Event.tickEvent 1, Event.tickEvent 2,
        Event.tickEvent 3] ++ [Event.ackEvent] ∧
    (∀ i, i < 4 →
      (Timer.handleCOMPA 38 19 55 27 153 76 102 51
        ⟨5, 6, 7, 8, true, false, true, false, true⟩).2.count (Event.tickEvent i) = 1) ∧
    (Timer.handleCOMPA 38 19 55 27 153 76 102 51
        ⟨5, 6, 7, 8, true, false, true, false, true⟩).2.getLast? = some Event.ackEvent ∧
    (Timer.handleCOMPA 38 19 55 27 153 76 102 51
        ⟨5, 6, 7, 8, true, false, true, false, true⟩).1 =
      { c0 := (Wave.tick 38 19 5).1, c1 := (Wave.tick 55 27 6).1
        c2 := (Wave.tick 153 76 7).1, c3 := (Wave.tick 102 51 8).1
        o0 := (Wave.tick 38 19 5).2, o1 := (Wave.tick 55 27 6).2
        o2 := (Wave.tick 153 76 7).2, o3 := (Wave.tick 102 51 8).2
        pending := false } :=
  handleCOMPA_ticks_all_once 38 19 55 27 153 76 102 51
    ⟨5, 6, 7, 8, true, false, true, false, true⟩

/-! Claim C9. -/

/-- Claim C9, confirmed: LFSR::next is deterministic.  Two LFSR instances
constructed with equal seeds and given equal numbers of next() calls
return identical bit sequences and end in identical register states. -/
theorem lfsr_deterministic (s1 s2 n1 n2 : Nat) (hs : s1 = s2) (hn : n1 = n2) :
    (LFSR.run s1 n1).1 = (LFSR.run s2 n2).1 ∧
    (LFSR.run s1 n1).2 = (LFSR.run s2 n2).2 := by
  subst hs
  subst hn
  exact ⟨rfl, rfl⟩

/-- Claim C9, witness: the determinism theorem applied to two instances
seeded with 0xA1E and run for 6 calls. -/
theorem lfsr_deterministic_witness :
    (LFSR.run 0xA1E 6).1 = (LFSR.run 0xA1E 6).1 ∧
    (LFSR.run 0xA1E 6).2 = (LFSR.run 0xA1E 6).2 :=
  lfsr_deterministic 0xA1E 0xA1E 6 6 rfl rfl

end NoiseChip
